import Mathlib

/-!
Verification of the KSeF invoice-sync repository.

This file gives a shallow embedding of the repository's core logic
(`sheets_client.py`, `ksef_client.py`, `main.py`) as executable Lean
definitions, and settles the frozen claims about it.

Conventions of the embedding:
* spreadsheet rows are `List String` (cell values are opaque strings;
  numeric amounts are carried verbatim and never inspected by the merge
  logic, so they are modelled as strings);
* Python truthiness of optional string fields is modelled explicitly
  (`pyOr`, `truthy`): `None` and `""` are falsy;
* HTTP traffic is modelled by response oracles `Nat → Response`; a call to
  `sys.exit` is an explicit `exit`-style outcome, a raised exception an
  explicit error outcome;
* `datetime.date` values are a `SimpleDate` record; `datetime.date.max`
  is the explicit constant `dateMax`, exactly as `parse_date` in
  `sheets_client.py` uses it as its failure value;
* dates handled as `datetime` arithmetic in `main.py` (whole days) are
  modelled as integer day numbers.
-/

namespace KsefSync

/-- A spreadsheet row: the list of its cell values. -/
abbrev Row := List String

/-- Cell access `row[i]`; out-of-range reads give `""` (real sheet reads
are rectangular, and the theorems that depend on a cell carry the length
hypotheses making this agree with Python indexing). -/
def cell (r : Row) (i : Nat) : String := r.getD i ""

/-- Prefix test on character lists (Python `str.startswith` on explicit
characters). -/
def charsStartWith : List Char → List Char → Bool
  | [], _ => true
  | _ :: _, [] => false
  | a :: as, b :: bs => a == b && charsStartWith as bs

/-- Substring test: Python's `needle in haystack` on strings. -/
def charsHasSub (need : List Char) : List Char → Bool
  | [] => charsStartWith need []
  | c :: rest => charsStartWith need (c :: rest) || charsHasSub need rest

/-- Python `sub in s` for strings. -/
def strHas (s sub : String) : Bool := charsHasSub sub.data s.data

/-- `datetime.date`, restricted to the fields the program reads. -/
structure SimpleDate where
  year : Nat
  month : Nat
  day : Nat
deriving DecidableEq

/-- `datetime.date.max` = 9999-12-31, the sentinel `parse_date` returns
for missing or malformed dates. -/
def dateMax : SimpleDate := ⟨9999, 12, 31⟩

/-- Numeric sort key of a date; lexicographic on (year, month, day) for
the in-range components produced by parsing. -/
def SimpleDate.key (d : SimpleDate) : Nat := d.year * 10000 + d.month * 100 + d.day

/-- Date comparison used by the ascending sort (Python `date.__le__`). -/
def dateLe (a b : SimpleDate) : Bool := a.key ≤ b.key

/-- Numeric value of a digit character. -/
def digitVal (c : Char) : Nat := c.toNat - 48

/-- Gregorian leap-year rule (as validated by `datetime.date`). -/
def isLeapYear (y : Nat) : Bool := (y % 4 == 0 && y % 100 != 0) || y % 400 == 0

/-- Length of a month, as validated by `datetime.date`. -/
def daysInMonth (y m : Nat) : Nat :=
  if m == 2 then (if isLeapYear y then 29 else 28)
  else if m == 4 || m == 6 || m == 9 || m == 11 then 30
  else 31

/-- `datetime.date.fromisoformat`: strict `YYYY-MM-DD` with range checks. -/
def parseIsoDateChars : List Char → Option SimpleDate
  | [y1, y2, y3, y4, s1, m1, m2, s2, d1, d2] =>
    if y1.isDigit && y2.isDigit && y3.isDigit && y4.isDigit && s1 == '-' &&
       m1.isDigit && m2.isDigit && s2 == '-' && d1.isDigit && d2.isDigit then
      let y := digitVal y1 * 1000 + digitVal y2 * 100 + digitVal y3 * 10 + digitVal y4
      let m := digitVal m1 * 10 + digitVal m2
      let d := digitVal d1 * 10 + digitVal d2
      if 1 ≤ y && 1 ≤ m && m ≤ 12 && 1 ≤ d && d ≤ daysInMonth y m then
        some ⟨y, m, d⟩
      else none
    else none
  | _ => none

/-- `datetime.date.fromisoformat` on a string. -/
def parseIsoDate (s : String) : Option SimpleDate := parseIsoDateChars s.data

/-- ISO time-of-day check for the `HH:MM` and `HH:MM:SS` shapes (the
forms the program's own date strings can carry after the separator). -/
def parseTimeChars : List Char → Bool
  | [h1, h2, c, m1, m2] =>
    h1.isDigit && h2.isDigit && c == ':' && m1.isDigit && m2.isDigit &&
    decide (digitVal h1 * 10 + digitVal h2 < 24) &&
    decide (digitVal m1 * 10 + digitVal m2 < 60)
  | [h1, h2, c, m1, m2, c2, s1, s2] =>
    h1.isDigit && h2.isDigit && c == ':' && m1.isDigit && m2.isDigit &&
    c2 == ':' && s1.isDigit && s2.isDigit &&
    decide (digitVal h1 * 10 + digitVal h2 < 24) &&
    decide (digitVal m1 * 10 + digitVal m2 < 60) &&
    decide (digitVal s1 * 10 + digitVal s2 < 60)
  | _ => false

/-- `datetime.datetime.fromisoformat(...).date()`: a date part, one
separator character, then a time of day; yields only the date part. -/
def parseDatetimeChars (cs : List Char) : Option SimpleDate :=
  match parseIsoDateChars (cs.take 10), cs.drop 10 with
  | some d, _ :: timeRest => if parseTimeChars timeRest then some d else none
  | _, _ => none

/-- `parse_date` from `sheets_client.sync_formatted_data`: empty string
and both parse failures give `datetime.date.max` ("Push invalid to end"). -/
def parse_date (s : String) : SimpleDate :=
  if s == "" then dateMax
  else
    match parseIsoDate s with
    | some d => d
    | none =>
      match parseDatetimeChars s.data with
      | some d => d
      | none => dateMax

/-- The fixed report header row of `sheets_client.py`. -/
def headersRow : Row :=
  ["KSeF ID", "Sprzedawca", "Nr dokumentu", "Data", "TERMIN",
   "Netto", "Brutto", "Kategoria", "PŁATNOŚĆ", "LOKAL", "UWAGI"]

/-- `month_names` dictionary of `SheetsClient` (default "MIESIĄC"). -/
def month_names (m : Nat) : String :=
  match m with
  | 1 => "STYCZEŃ" | 2 => "LUTY" | 3 => "MARZEC" | 4 => "KWIECIEŃ"
  | 5 => "MAJ" | 6 => "CZERWIEC" | 7 => "LIPIEC" | 8 => "SIERPIEŃ"
  | 9 => "WRZESIEŃ" | 10 => "PAŹDZIERNIK" | 11 => "LISTOPAD" | 12 => "GRUDZIEŃ"
  | _ => "MIESIĄC"

/-- Month-group label row text (`f"--- {month_pl} {year} ---"`). -/
def monthHeaderText (y m : Nat) : String :=
  "--- " ++ month_names m ++ " " ++ toString y ++ " ---"

/-- Python `s.strip()` yields the empty string: every character is
whitespace. -/
def isBlank (s : String) : Bool := s.data.all (fun c => c.isWhitespace)

/-- The filter building `existing_full_rows` in `sync_formatted_data`:
keep a row unless it is empty, has an empty/blank first cell, is a month
label row (`"---"` prefix) or a summary row (`"Total Net"` marker). -/
def isDataRow (r : Row) : Bool :=
  match r with
  | [] => false
  | c0 :: _ =>
    !(c0 == "") &&
    !(charsStartWith "---".data c0.data) &&
    !(strHas c0 "Total Net") &&
    !(decide (r.length > 5) && strHas (cell r 5) "Total Net") &&
    !(isBlank c0)

/-- Drop the header row when the first row starts with "KSeF ID"
(the `start_idx` computation of `sync_formatted_data`). -/
def dropHeader (av : List Row) : List Row :=
  match av with
  | [] => []
  | r0 :: rest => if cell r0 0 == "KSeF ID" then rest else av

/-- `existing_full_rows`: the data rows read back from the sheet. -/
def existing_full_rows (av : List Row) : List Row :=
  (dropHeader av).filter isDataRow

/-- Pad a new row with empty strings up to the 11-column layout
(the `while len(row) < 11: row.append("")` loop). -/
def padRow (r : Row) : Row := r ++ List.replicate (11 - r.length) ""

/-- The "Add New Rows" loop of `sync_formatted_data`: append each new row
whose id is not yet in the id set, recording the id; returns the appended
(padded) rows and how many were accepted. -/
def addNewRows (ids : List String) : List Row → List Row × Nat
  | [] => ([], 0)
  | r :: rest =>
    if ids.contains (cell r 0) then addNewRows ids rest
    else
      (padRow r :: (addNewRows (cell r 0 :: ids) rest).1,
       (addNewRows (cell r 0 :: ids) rest).2 + 1)

/-- The ids contributed by the existing data rows (the
`existing_ids_set` seeding of `sync_formatted_data`). -/
def existingIdsOf (av : List Row) : List String :=
  (existing_full_rows av).map (fun r => cell r 0)

/-- `final_dataset` of `sync_formatted_data` (existing data rows followed
by the accepted new rows), together with the accepted count. -/
def mergeDataset (av nr : List Row) : List Row × Nat :=
  (existing_full_rows av ++ (addNewRows (existingIdsOf av) nr).1,
   (addNewRows (existingIdsOf av) nr).2)

/-- The sort key comparison of step 3: ascending by `parse_date(row[3])`. -/
def rowLe (a b : Row) : Bool :=
  dateLe (parse_date (cell a 3)) (parse_date (cell b 3))

/-- Stable insertion of a row into an already-sorted list: the row goes
before the first element it compares `≤` to, hence after every earlier
element with an equal key. -/
def orderedInsertRow (x : Row) : List Row → List Row
  | [] => [x]
  | y :: ys => if rowLe x y then x :: y :: ys else y :: orderedInsertRow x ys

/-- The ascending sort by `parse_date(row[3])` of step 3. Python
`list.sort` is a stable sort by a total preorder key; a stable insertion
sort produces the identical list for such a comparison. -/
def sortedDataset : List Row → List Row
  | [] => []
  | x :: xs => orderedInsertRow x (sortedDataset xs)

/-- `get_month_key`: `(year, month)` of the row date, `None` when the
parsed date is `datetime.date.max`. -/
def get_month_key (r : Row) : Option (Nat × Nat) :=
  let d := parse_date (cell r 3)
  if d = dateMax then none else some (d.year, d.month)

/-- `itertools.groupby` over month keys: maximal runs of consecutive rows
with equal `get_month_key`. -/
def groupRuns : List Row → List (Option (Nat × Nat) × List Row)
  | [] => []
  | r :: rest =>
    match groupRuns rest with
    | [] => [(get_month_key r, [r])]
    | (k, grp) :: gs =>
      if get_month_key r = k then (get_month_key r, r :: grp) :: gs
      else (get_month_key r, [r]) :: (k, grp) :: gs

/-- Selector for an emitted month block: `None`-keyed groups are skipped
(`if not key: continue`), `some`-keyed groups emit a label row followed
by the group's member rows. -/
def blockSel (g : Option (Nat × Nat) × List Row) : Option (List Row) :=
  match g.1 with
  | none => none
  | some (y, m) => some ([monthHeaderText y m] :: g.2)

/-- Selector for the member rows of an emitted month block (the label
row left out). -/
def memberSel (g : Option (Nat × Nat) × List Row) : Option (List Row) :=
  match g.1 with
  | none => none
  | some _ => some g.2

/-- The output blocks of step 4: one block per month group with a `some`
key, each a label row followed by that group's member rows. -/
def outputBlocks (ds : List Row) : List (List Row) :=
  (groupRuns (sortedDataset ds)).filterMap blockSel

/-- The member (data) rows that survive into the output, in output
order: the rows of the groups with a `some` key. -/
def outputMemberRows (ds : List Row) : List Row :=
  ((groupRuns (sortedDataset ds)).filterMap memberSel).flatten

/-- Result of one run of `sync_formatted_data`, restricted to the data it
computes before talking to the Sheets API: the merged dataset, the number
of newly accepted rows, and the full rewritten cell grid (`output_rows`). -/
structure SyncResult where
  finalDataset : List Row
  accepted : Nat
  outputRows : List Row
deriving DecidableEq

/-- `sync_formatted_data(new_rows)` of `sheets_client.py`, as a function
of the sheet's current cell grid `av` and the `new_rows` argument. -/
def sync_formatted_data (av nr : List Row) : SyncResult :=
  { finalDataset := (mergeDataset av nr).1
    accepted := (mergeDataset av nr).2
    outputRows := headersRow :: (outputBlocks (mergeDataset av nr).1).flatten }

/-! ## `get_existing_ids` (`sheets_client.py`) -/

/-- `get_existing_ids`: reading column A either raises (modelled as
`Except.error`) or yields the cell list; any exception is caught and the
empty set returned. The returned set is modelled as the list of its
elements. -/
def get_existing_ids (colA : Except Unit (List String)) : List String :=
  match colA with
  | .error _ => []
  | .ok ids =>
    match ids with
    | h :: t => if h == "KSeF ID" then t else ids
    | [] => []

/-! ## Invoice processing (`main.py`, step "Process & Deduplicate") -/

/-- One raw record from the gateway, restricted to the optional fields
`main.py` reads. The nested lookups
`invoice.get('seller', {}).get('name')` and
`invoice.get('issuedBy', {}).get(...).get(...)` are flattened to one
optional field each; amounts are carried opaquely as strings. -/
structure Invoice where
  ksefReferenceNumber : Option String
  ksefNumber : Option String
  invoiceReferenceNumber : Option String
  invoiceNumber : Option String
  invoicingDate : Option String
  acquisitionDate : Option String
  paymentDueDate : Option String
  sellerName : Option String
  issuedByTradeName : Option String
  issuedByFullName : Option String
  netAmount : Option String
  grossAmount : Option String
deriving DecidableEq

/-- A record with every optional field absent. -/
def Invoice.empty : Invoice :=
  ⟨none, none, none, none, none, none, none, none, none, none, none, none⟩

/-- Python `a or b` over optional strings: `None` and `""` are falsy. -/
def pyOr (a b : Option String) : Option String :=
  match a with
  | some s => if s == "" then b else some s
  | none => b

/-- Python `a or d` with a string default. -/
def pyOrD (a : Option String) (d : String) : String :=
  match a with
  | some s => if s == "" then d else s
  | none => d

/-- Python truthiness of an optional string. -/
def truthy (a : Option String) : Bool :=
  match a with
  | some s => !(s == "")
  | none => false

/-- Characters before the first `'T'` (Python `v.split('T')[0]`). -/
def takeUntilT : List Char → List Char
  | [] => []
  | c :: rest => if c == 'T' then [] else c :: takeUntilT rest

/-- `if v and 'T' in v: v = v.split('T')[0]` — keep only the date part
(a string without `'T'` is returned unchanged, which is also what the
split produces). -/
def stripTimePart (s : String) : String :=
  if s == "" then s else ⟨takeUntilT s.data⟩

/-- The record-id fallback chain of `main.py`:
`invoice.get('ksefReferenceNumber') or invoice.get('ksefNumber')`. -/
def resolveId (inv : Invoice) : Option String :=
  pyOr inv.ksefReferenceNumber inv.ksefNumber

/-- Document-number fallback chain, default `'N/A'`. -/
def invNumOf (inv : Invoice) : String :=
  pyOrD (pyOr inv.invoiceReferenceNumber inv.invoiceNumber) "N/A"

/-- Issue-date fallback chain, default `'N/A'`, time part stripped. -/
def invDateOf (inv : Invoice) : String :=
  stripTimePart (pyOrD (pyOr inv.invoicingDate inv.acquisitionDate) "N/A")

/-- Due-date field, default `'N/A'`, time part stripped. -/
def payDueOf (inv : Invoice) : String :=
  stripTimePart (pyOrD inv.paymentDueDate "N/A")

/-- Seller-name fallback chain, default `'Unknown'`. -/
def sellerNameOf (inv : Invoice) : String :=
  pyOrD (pyOr (pyOr inv.sellerName inv.issuedByTradeName) inv.issuedByFullName) "Unknown"

/-- `invoice.get('netAmount', 0.0)` — amounts carried opaquely. -/
def netOf (inv : Invoice) : String := inv.netAmount.getD "0.0"

/-- `invoice.get('grossAmount', 0.0)`. -/
def grossOf (inv : Invoice) : String := inv.grossAmount.getD "0.0"

/-- The 7-column row `main.py` builds for an accepted record. -/
def buildRow (inv : Invoice) (kid : String) : Row :=
  [kid, sellerNameOf inv, invNumOf inv, invDateOf inv, payDueOf inv, netOf inv, grossOf inv]

/-- The processing/deduplication loop of `main.py`: records whose
resolved id is falsy are skipped outright (`if not ksef_id: continue`);
records whose id is already in `existing_ids` bump the duplicate
counter; the rest become report rows and their id joins the set.
Returns (new_rows, skipped_count, final id set). -/
def processInvoices : List Invoice → List String → List Row × Nat × List String
  | [], ids => ([], 0, ids)
  | inv :: rest, ids =>
    if !(truthy (resolveId inv)) then processInvoices rest ids
    else
      if ids.contains ((resolveId inv).getD "") then
        ((processInvoices rest ids).1,
         (processInvoices rest ids).2.1 + 1,
         (processInvoices rest ids).2.2)
      else
        (buildRow inv ((resolveId inv).getD "") ::
           (processInvoices rest ((resolveId inv).getD "" :: ids)).1,
         (processInvoices rest ((resolveId inv).getD "" :: ids)).2.1,
         (processInvoices rest ((resolveId inv).getD "" :: ids)).2.2)

/-! ## HTTP client models (`ksef_client.py`) -/

/-- An HTTP response as far as `_post` inspects it. -/
structure HttpResponse where
  status : Nat
deriving DecidableEq

/-- Outcome of `KsefClient._post`: `sys.exit(1)`, a raised exception, or
a normal return. -/
inductive PostOutcome
  | exitFatal
  | raised
  | ok
deriving DecidableEq

/-- `KsefClient._post`: status 401/403 exits the process immediately
(both on the pre-check and on the `HTTPError` double-check path); any
other error status ≥ 400 re-raises; otherwise the JSON body is
returned. -/
def postModel (resp : HttpResponse) : PostOutcome :=
  if resp.status == 401 || resp.status == 403 then .exitFatal
  else if 400 ≤ resp.status then .raised
  else .ok

/-- A response of the redeem endpoint. -/
structure RedeemResponse where
  status : Nat
  token : String
deriving DecidableEq

/-- Result of `_redeem_token`. -/
inductive RedeemResult
  | success (tok : String)
  | httpError (code : Nat)
  | exhausted
deriving DecidableEq

/-- Trace of one `_redeem_token` run: its result, the number of POST
requests issued, and the sequence of back-off sleeps (seconds). -/
structure RedeemTrace where
  result : RedeemResult
  requests : Nat
  waits : List Nat
deriving DecidableEq

/-- The attempt loop of `_redeem_token`, from attempt number `attempt`
with `rem` attempts remaining (`max_attempts = 5` at top level): 200
succeeds; 400/480/100/429 sleeps `2 * 2^(attempt-1)` seconds and
retries; any other status ≥ 400 raises `HTTPError`; any other non-200
status falls through to the next attempt without sleeping; exhausting
the attempts raises the max-retries exception. -/
def redeemFrom (resp : Nat → RedeemResponse) :
    Nat → Nat → Nat → List Nat → RedeemTrace
  | _, 0, reqs, ws => ⟨.exhausted, reqs, ws⟩
  | attempt, rem + 1, reqs, ws =>
    let r := resp attempt
    if r.status == 200 then ⟨.success r.token, reqs + 1, ws⟩
    else if r.status == 400 || r.status == 480 || r.status == 100 || r.status == 429 then
      redeemFrom resp (attempt + 1) rem (reqs + 1) (ws ++ [2 * 2 ^ (attempt - 1)])
    else if 400 ≤ r.status then ⟨.httpError r.status, reqs + 1, ws⟩
    else redeemFrom resp (attempt + 1) rem (reqs + 1) ws

/-- `_redeem_token` against a response oracle indexed by attempt number
(attempts are numbered 1..5 as in `range(1, max_attempts + 1)`). -/
def redeemToken (resp : Nat → RedeemResponse) : RedeemTrace :=
  redeemFrom resp 1 5 0 []

/-- A response of the session-status endpoint: HTTP status plus the
`processingStatus` field of the body (absent models both a missing field
and a body that fails to decode). -/
structure PollResponse where
  status : Nat
  processingStatus : Option Int
deriving DecidableEq

/-- Trace of `_check_session_status`: number of GET requests issued and
whether status 300 was reached (`false` = the bound was exhausted and
the timeout exception raised). -/
structure PollTrace where
  requests : Nat
  confirmed : Bool
deriving DecidableEq

/-- The polling loop of `_check_session_status` (`max_retries = 10`):
`raise_for_status` failures — 401/403 included — and every other
exception are caught by the blanket `except`, slept on and retried;
`processingStatus == 300` returns success; any other status polls
again. -/
def pollFrom (resp : Nat → PollResponse) : Nat → Nat → Nat → PollTrace
  | _, 0, reqs => ⟨reqs, false⟩
  | i, rem + 1, reqs =>
    let r := resp i
    if 400 ≤ r.status then pollFrom resp (i + 1) rem (reqs + 1)
    else if r.processingStatus == some 300 then ⟨reqs + 1, true⟩
    else pollFrom resp (i + 1) rem (reqs + 1)

/-- `_check_session_status` against a response oracle indexed by
iteration. -/
def checkSessionStatus (resp : Nat → PollResponse) : PollTrace :=
  pollFrom resp 0 10 0

/-! ## `get_invoices` pagination (`ksef_client.py`) -/

/-- A response of the invoice-query endpoint: HTTP status and the record
list the body carries (the multi-alias body-field extraction of the
source is abstracted into this one field). -/
structure QueryResponse (α : Type) where
  status : Nat
  records : List α

/-- How `get_invoices` ends. -/
inductive FetchOutcome (α : Type)
  | done (recs : List α) (limitHit : Bool)
  | exitFatal
  | raised (code : Nat)
  | fuelOut

/-- Trace of a `get_invoices` run: the outcome plus the log of issued
page requests as `(request index, page offset)` pairs. -/
structure FetchTrace (α : Type) where
  outcome : FetchOutcome α
  log : List (Nat × Nat)

/-- The page loop of `get_invoices` over a response oracle indexed by
request count. Before each request the 10k safeguard stops the loop when
`page_offset * page_size ≥ 9900`, returning the records accumulated so
far. While `retry` is available (page offset 0 only, one use), a 401/403
response is re-requested after a fixed delay instead of aborting;
otherwise 401/403 exits the process (`sys.exit(1)`), 429 exits the
process (rate-limit critical stop), and any other status ≥ 400
re-raises. An empty page, or a page shorter than the page size, ends the
loop normally; otherwise the offset advances with no retry available. -/
def fetchGo (resp : Nat → QueryResponse α) (ps : Nat) :
    Nat → Nat → List α → Nat → List (Nat × Nat) → Bool → FetchTrace α
  | 0, _, _, _, log, _ => ⟨.fuelOut, log⟩
  | fuel + 1, offset, acc, ridx, log, retry =>
    if 9900 ≤ offset * ps then ⟨.done acc true, log⟩
    else
      if (((resp ridx).status == 401 || (resp ridx).status == 403) && retry) = true then
        fetchGo resp ps fuel offset acc (ridx + 1) (log ++ [(ridx, offset)]) false
      else if ((resp ridx).status == 401 || (resp ridx).status == 403) = true then
        ⟨.exitFatal, log ++ [(ridx, offset)]⟩
      else if (resp ridx).status == 429 then ⟨.exitFatal, log ++ [(ridx, offset)]⟩
      else if 400 ≤ (resp ridx).status then ⟨.raised (resp ridx).status, log ++ [(ridx, offset)]⟩
      else if (resp ridx).records.isEmpty then ⟨.done acc false, log ++ [(ridx, offset)]⟩
      else if (resp ridx).records.length < ps then
        ⟨.done (acc ++ (resp ridx).records) false, log ++ [(ridx, offset)]⟩
      else
        fetchGo resp ps fuel (offset + 1) (acc ++ (resp ridx).records) (ridx + 1)
          (log ++ [(ridx, offset)]) false

/-- `get_invoices` of `ksef_client.py`: the page size is clamped to the
250 production limit, then the page loop runs from offset 0 with the
one-off first-page auth retry armed. -/
def get_invoices (resp : Nat → QueryResponse α) (page_size : Nat) (fuel : Nat) :
    FetchTrace α :=
  fetchGo resp (if 250 < page_size then 250 else page_size) fuel 0 [] 0 [] true

/-! ## `fetch_invoices_reverse_chunks` and `save_progress` (`main.py`) -/

/-- How the backward chunked walk ends. -/
inductive ChunkEnd
  | completed
  | stoppedByUser
  | raised
  | fuelOut
deriving DecidableEq

/-- Trace of a `fetch_invoices_reverse_chunks` run: the sequence of
`save_progress` checkpoint writes in order, the queried windows
`(from, to)`, the accumulated records, and how the walk ended. Dates are
integer day numbers. -/
structure ChunkTrace (α : Type) where
  writes : List Int
  queries : List (Int × Int)
  recs : List α
  ending : ChunkEnd

/-- The loop of `fetch_invoices_reverse_chunks`: while the pointer is
above the overall start, compute the chunk lower bound (pointer minus
chunk size, clamped to the start), query `[lower bound, pointer + 1)`
(one-day overlap on the upper edge), and on success append the batch,
persist the lower bound via `save_progress`, apply the 3-strike
empty-chunk prompt, and move the pointer to the lower bound; a fetch
exception aborts the walk with the writes made so far intact. `fetch` is
indexed by chunk number, `prompt` by prompt number (`none` models
`EOFError`, `some true` the operator answering `Y`). -/
def chunkLowerBound (startD chunkDays pointer : Int) : Int :=
  if pointer - chunkDays < startD then startD else pointer - chunkDays

/-- The loop body of `fetch_invoices_reverse_chunks`; see the comment on
`chunkLowerBound` above for the walk's contract. -/
def chunksGo (fetch : Nat → Except Unit (List α)) (prompt : Nat → Option Bool)
    (startD chunkDays : Int) :
    Nat → Int → Nat → Nat → Nat → List Int → List (Int × Int) → List α → ChunkTrace α
  | 0, _, _, _, _, writes, queries, acc => ⟨writes, queries, acc, .fuelOut⟩
  | fuel + 1, pointer, ci, pi, streak, writes, queries, acc =>
    if pointer ≤ startD then ⟨writes, queries, acc, .completed⟩
    else
      match fetch ci with
      | .error _ =>
        ⟨writes, queries ++ [(chunkLowerBound startD chunkDays pointer, pointer + 1)],
         acc, .raised⟩
      | .ok batch =>
        if batch.isEmpty = true then
          if 3 ≤ streak + 1 then
            match prompt pi with
            | some true =>
              chunksGo fetch prompt startD chunkDays fuel
                (chunkLowerBound startD chunkDays pointer) (ci + 1) (pi + 1) 0
                (writes ++ [chunkLowerBound startD chunkDays pointer])
                (queries ++ [(chunkLowerBound startD chunkDays pointer, pointer + 1)]) acc
            | some false =>
              ⟨writes ++ [chunkLowerBound startD chunkDays pointer],
               queries ++ [(chunkLowerBound startD chunkDays pointer, pointer + 1)],
               acc, .stoppedByUser⟩
            | none =>
              ⟨writes ++ [chunkLowerBound startD chunkDays pointer],
               queries ++ [(chunkLowerBound startD chunkDays pointer, pointer + 1)],
               acc, .stoppedByUser⟩
          else
            chunksGo fetch prompt startD chunkDays fuel
              (chunkLowerBound startD chunkDays pointer) (ci + 1) (pi + 1) (streak + 1)
              (writes ++ [chunkLowerBound startD chunkDays pointer])
              (queries ++ [(chunkLowerBound startD chunkDays pointer, pointer + 1)]) acc
        else
          chunksGo fetch prompt startD chunkDays fuel
            (chunkLowerBound startD chunkDays pointer) (ci + 1) (pi + 1) 0
            (writes ++ [chunkLowerBound startD chunkDays pointer])
            (queries ++ [(chunkLowerBound startD chunkDays pointer, pointer + 1)])
            (acc ++ batch)

/-- `fetch_invoices_reverse_chunks(ksef, start_date, end_date,
chunk_days)`: the walk starts with the pointer at the end date. -/
def fetch_invoices_reverse_chunks (fetch : Nat → Except Unit (List α))
    (prompt : Nat → Option Bool) (startD endD chunkDays : Int) (fuel : Nat) :
    ChunkTrace α :=
  chunksGo fetch prompt startD chunkDays fuel endD 0 0 0 [] [] []

/-- Whether a row's month key is defined (its date parsed). -/
def hasKey (r : Row) : Bool := (get_month_key r).isSome

/-! ## Helper lemmas -/

theorem orderedInsertRow_perm (x : Row) (l : List Row) :
    (orderedInsertRow x l).Perm (x :: l) := by
  induction l with
  | nil => simp [orderedInsertRow]
  | cons y ys ih =>
    simp only [orderedInsertRow]
    split
    · exact List.Perm.refl _
    · exact ((ih.cons y).trans (List.Perm.swap x y ys))

theorem sortedDataset_perm (l : List Row) : (sortedDataset l).Perm l := by
  induction l with
  | nil => simp [sortedDataset]
  | cons x xs ih =>
    exact (orderedInsertRow_perm x (sortedDataset xs)).trans (ih.cons x)

theorem mem_sortedDataset {r : Row} {l : List Row} : r ∈ sortedDataset l ↔ r ∈ l :=
  (sortedDataset_perm l).mem_iff

theorem memberSel_none (grp : List Row) : memberSel (none, grp) = none := rfl

theorem memberSel_some (yk : Nat × Nat) (grp : List Row) :
    memberSel (some yk, grp) = some grp := rfl

theorem blockSel_none (grp : List Row) : blockSel (none, grp) = none := rfl

theorem blockSel_some (y m : Nat) (grp : List Row) :
    blockSel (some (y, m), grp) = some ([monthHeaderText y m] :: grp) := rfl

/-- The member rows of the month groups are exactly the rows whose month
key is defined, in input order. -/
theorem groupRuns_member_filter (l : List Row) :
    ((groupRuns l).filterMap memberSel).flatten = l.filter hasKey := by
  induction l with
  | nil => simp [groupRuns]
  | cons r rest ih =>
    simp only [groupRuns]
    rcases hg : groupRuns rest with _ | ⟨⟨k, grp⟩, gs⟩
    · rw [hg] at ih
      simp only [List.filterMap_nil, List.flatten_nil] at ih
      rcases hk : get_month_key r with _ | yk
      · simp [memberSel_none, List.filter_cons, hasKey, hk, ← ih]
      · simp [memberSel_some, List.filter_cons, hasKey, hk, ← ih]
    · rw [hg] at ih
      by_cases hkr : get_month_key r = k
      · simp only [if_pos hkr]
        rcases hk : get_month_key r with _ | yk
        · rw [hk] at hkr
          rw [← hkr] at ih
          simp only [List.filterMap_cons, memberSel_none] at ih ⊢
          rw [List.filter_cons_of_neg (by simp [hasKey, hk])]
          exact ih
        · rw [hk] at hkr
          rw [← hkr] at ih
          simp only [List.filterMap_cons, memberSel_some] at ih ⊢
          rw [List.filter_cons_of_pos (by simp [hasKey, hk])]
          simp only [List.flatten_cons] at ih ⊢
          rw [← ih]
          simp
      · simp only [if_neg hkr]
        rcases hk : get_month_key r with _ | yk
        · simp only [List.filterMap_cons, memberSel_none] at ih ⊢
          rw [List.filter_cons_of_neg (by simp [hasKey, hk])]
          exact ih
        · simp only [List.filterMap_cons, memberSel_some] at ih ⊢
          rw [List.filter_cons_of_pos (by simp [hasKey, hk])]
          rw [← ih]
          simp

theorem outputMemberRows_eq_filter (ds : List Row) :
    outputMemberRows ds = (sortedDataset ds).filter hasKey :=
  groupRuns_member_filter (sortedDataset ds)

/-- Any member row of a month group appears in the flattened output
blocks. -/
theorem mem_outputBlocks_of_mem_member {t : Row} {ds : List Row}
    (h : t ∈ outputMemberRows ds) : t ∈ (outputBlocks ds).flatten := by
  unfold outputMemberRows at h
  unfold outputBlocks
  generalize groupRuns (sortedDataset ds) = gs at h ⊢
  induction gs with
  | nil => simp at h
  | cons g gs ih =>
    rcases g with ⟨k, grp⟩
    rcases k with _ | ⟨y, m⟩
    · simp only [List.filterMap_cons, memberSel_none] at h
      simp only [List.filterMap_cons, blockSel_none]
      exact ih h
    · simp only [List.filterMap_cons, memberSel_some] at h
      simp only [List.filterMap_cons, blockSel_some]
      simp only [List.flatten_cons, List.mem_append] at h ⊢
      rcases h with h | h
      · exact Or.inl (List.mem_cons_of_mem _ h)
      · exact Or.inr (ih h)

theorem cell_padRow_zero (r : Row) : cell (padRow r) 0 = cell r 0 := by
  cases r <;> simp [padRow, cell]

/-- Every new row's id ends up either already known or among the ids of
the accepted rows. -/
theorem addNewRows_covers (ids : List String) {nr : List Row} {r : Row}
    (h : r ∈ nr) :
    cell r 0 ∈ ids ∨ cell r 0 ∈ (addNewRows ids nr).1.map (fun t => cell t 0) := by
  induction nr generalizing ids with
  | nil => cases h
  | cons x rest ih =>
    rcases List.mem_cons.mp h with he | hr
    · subst he
      by_cases hc : ids.contains (cell r 0) = true
      · exact Or.inl (List.elem_iff.mp hc)
      · right
        simp only [addNewRows, if_neg hc, List.map_cons, cell_padRow_zero]
        exact List.mem_cons_self _ _
    · by_cases hc : ids.contains (cell x 0) = true
      · simp only [addNewRows, if_pos hc]
        exact ih ids hr
      · simp only [addNewRows, if_neg hc, List.map_cons, cell_padRow_zero]
        rcases ih (cell x 0 :: ids) hr with hmem | hmem
        · rcases List.mem_cons.mp hmem with he | he
          · exact Or.inr (he ▸ List.mem_cons_self _ _)
          · exact Or.inl he
        · exact Or.inr (List.mem_cons_of_mem _ hmem)

/-- Accepted rows have ids that were not previously known. -/
theorem addNewRows_fresh (ids : List String) {nr : List Row} {t : Row}
    (h : t ∈ (addNewRows ids nr).1) : cell t 0 ∉ ids := by
  induction nr generalizing ids with
  | nil => simp [addNewRows] at h
  | cons x rest ih =>
    by_cases hc : ids.contains (cell x 0) = true
    · rw [addNewRows, if_pos hc] at h
      exact ih ids h
    · rw [addNewRows, if_neg hc] at h
      rcases List.mem_cons.mp h with he | he
      · subst he
        rw [cell_padRow_zero]
        intro hmem
        exact hc (List.elem_iff.mpr hmem)
      · intro hmem
        exact ih (cell x 0 :: ids) he (List.mem_cons_of_mem _ hmem)

/-- If every candidate id is already known, nothing is accepted. -/
theorem addNewRows_count_zero {ids : List String} {nr : List Row}
    (h : ∀ r ∈ nr, cell r 0 ∈ ids) : (addNewRows ids nr).2 = 0 := by
  induction nr with
  | nil => simp [addNewRows]
  | cons x rest ih =>
    have hx : ids.contains (cell x 0) = true :=
      List.elem_iff.mpr (h x (List.mem_cons_self x rest))
    rw [addNewRows, if_pos hx]
    exact ih fun r hr => h r (List.mem_cons_of_mem x hr)

theorem data_monthHeader (y m : Nat) :
    (monthHeaderText y m).data =
      '-' :: '-' :: '-' :: ' ' ::
        (month_names m).data ++ " ".data ++ (toString y).data ++ " ---".data := by
  simp only [monthHeaderText, String.data_append]
  rfl

/-- A month label row is filtered out as a non-data row (its first cell
starts with `"---"`). -/
theorem isDataRow_monthHeader (y m : Nat) : isDataRow [monthHeaderText y m] = false := by
  have hpre : charsStartWith "---".data (monthHeaderText y m).data = true := by
    rw [data_monthHeader]
    have h3 : "---".data = ['-', '-', '-'] := rfl
    rw [h3]
    simp [charsStartWith]
  simp [isDataRow, hpre]

/-- Dropping the header of an output grid exposes the emitted blocks. -/
theorem dropHeader_cons_headersRow (bs : List Row) :
    dropHeader (headersRow :: bs) = bs := rfl

/-- Filtering the emitted blocks for data rows is the same as filtering
the member rows: the label rows never pass the filter. -/
theorem filter_isDataRow_blocks (gs : List (Option (Nat × Nat) × List Row)) :
    ((gs.filterMap blockSel).flatten).filter isDataRow
      = ((gs.filterMap memberSel).flatten).filter isDataRow := by
  induction gs with
  | nil => rfl
  | cons g tail ih =>
    rcases g with ⟨k, grp⟩
    rcases k with _ | ⟨y, m⟩
    · simp only [List.filterMap_cons, blockSel_none, memberSel_none]
      exact ih
    · simp only [List.filterMap_cons, blockSel_some, memberSel_some, List.flatten_cons]
      rw [List.filter_append, List.filter_append, ih]
      rw [List.filter_cons_of_neg (by simp [isDataRow_monthHeader])]

/-- The data rows a later sync reads back from the rewritten grid are
the member rows that pass the data-row filter. -/
theorem existing_full_rows_sync (av nr : List Row) :
    existing_full_rows ((sync_formatted_data av nr).outputRows)
      = (outputMemberRows (mergeDataset av nr).1).filter isDataRow := by
  show ((dropHeader (headersRow :: (outputBlocks (mergeDataset av nr).1).flatten)).filter
      isDataRow) = _
  rw [dropHeader_cons_headersRow]
  unfold outputBlocks outputMemberRows
  exact filter_isDataRow_blocks _

/-- Accepting new rows preserves distinctness of the id universe. -/
theorem addNewRows_nodup (ids : List String) {nr : List Row}
    (h : ids.Nodup) :
    (ids ++ (addNewRows ids nr).1.map (fun t => cell t 0)).Nodup := by
  induction nr generalizing ids with
  | nil => simpa [addNewRows] using h
  | cons x rest ih =>
    by_cases hc : ids.contains (cell x 0) = true
    · rw [addNewRows, if_pos hc]
      exact ih ids h
    · rw [addNewRows, if_neg hc]
      have hn : (cell x 0 :: ids).Nodup := by
        refine List.nodup_cons.mpr ⟨?_, h⟩
        intro hmem
        exact hc (List.elem_iff.mpr hmem)
      have hrec := ih (cell x 0 :: ids) hn
      simp only [List.map_cons, cell_padRow_zero]
      have hperm :
          ((cell x 0 :: ids) ++
              ((addNewRows (cell x 0 :: ids) rest).1.map (fun t => cell t 0))).Perm
            (ids ++ cell x 0 ::
              ((addNewRows (cell x 0 :: ids) rest).1.map (fun t => cell t 0))) := by
        simpa using List.perm_middle.symm
      exact hperm.nodup hrec

/-- When every merged row has a parseable date, the member rows of the
output are a permutation of the merged dataset. -/
theorem outputMember_perm_of_allKeys {ds : List Row}
    (H1 : ∀ r ∈ ds, hasKey r = true) :
    (outputMemberRows ds).Perm ds := by
  rw [outputMemberRows_eq_filter]
  rw [List.filter_eq_self.mpr fun r hr => H1 r (mem_sortedDataset.mp hr)]
  exact sortedDataset_perm ds

/-- Membership of output member rows in the merged dataset. -/
theorem mem_dataset_of_mem_member {t : Row} {ds : List Row}
    (h : t ∈ outputMemberRows ds) : t ∈ ds := by
  rw [outputMemberRows_eq_filter] at h
  exact mem_sortedDataset.mp (List.mem_of_mem_filter h)

/-- A merged row with a parseable date appears among the output's member
rows. -/
theorem mem_member_of_mem_dataset {t : Row} {ds : List Row}
    (ht : t ∈ ds) (hk : hasKey t = true) : t ∈ outputMemberRows ds := by
  rw [outputMemberRows_eq_filter]
  exact List.mem_filter.mpr ⟨mem_sortedDataset.mpr ht, hk⟩

/-- The ids of the merged dataset: existing ids then accepted-row ids. -/
theorem mergeDataset_map_ids (av nr : List Row) :
    (mergeDataset av nr).1.map (fun t => cell t 0)
      = existingIdsOf av ++ (addNewRows (existingIdsOf av) nr).1.map (fun t => cell t 0) := by
  simp [mergeDataset, existingIdsOf]

/-- Distinct existing ids give a merged dataset with distinct ids. -/
theorem mergeDataset_nodup {av : List Row} (nr : List Row)
    (h : (existingIdsOf av).Nodup) :
    ((mergeDataset av nr).1.map (fun t => cell t 0)).Nodup := by
  rw [mergeDataset_map_ids]
  exact addNewRows_nodup (existingIdsOf av) h

/-- Distinct existing ids give output member rows with pairwise distinct
ids: the written report never carries a duplicated record id. -/
theorem outputMember_ids_nodup {av : List Row} (nr : List Row)
    (h : (existingIdsOf av).Nodup) :
    ((outputMemberRows (mergeDataset av nr).1).map (fun t => cell t 0)).Nodup := by
  have hds := mergeDataset_nodup nr h
  have hsorted :
      ((sortedDataset (mergeDataset av nr).1).map (fun t => cell t 0)).Nodup :=
    (((sortedDataset_perm (mergeDataset av nr).1).map _).symm).nodup hds
  rw [outputMemberRows_eq_filter]
  exact ((List.filter_sublist _).map _).nodup hsorted

/-- Every id occurring among the new rows occurs in the merged dataset. -/
theorem mergeDataset_covers (av : List Row) {nr : List Row} {r : Row}
    (h : r ∈ nr) :
    cell r 0 ∈ (mergeDataset av nr).1.map (fun t => cell t 0) := by
  rw [mergeDataset_map_ids]
  rcases addNewRows_covers (existingIdsOf av) h with hmem | hmem
  · exact List.mem_append_left _ hmem
  · exact List.mem_append_right _ hmem

/-- Core idempotence: if every row of the first merge's dataset has a
parseable date and passes the data-row read-back filter, then repeating
the merge with the same new rows against the rewritten grid accepts
nothing. -/
theorem sync_idempotent {av nr : List Row}
    (H1 : ∀ r ∈ (mergeDataset av nr).1, hasKey r = true)
    (H2 : ∀ r ∈ (mergeDataset av nr).1, isDataRow r = true) :
    (sync_formatted_data ((sync_formatted_data av nr).outputRows) nr).accepted = 0 := by
  show (mergeDataset ((sync_formatted_data av nr).outputRows) nr).2 = 0
  show (addNewRows (existingIdsOf ((sync_formatted_data av nr).outputRows)) nr).2 = 0
  apply addNewRows_count_zero
  intro r hr
  have hcov := mergeDataset_covers av hr
  rcases List.mem_map.mp hcov with ⟨t, ht, hteq⟩
  have htm : t ∈ outputMemberRows (mergeDataset av nr).1 :=
    mem_member_of_mem_dataset ht (H1 t ht)
  have hfil : t ∈ (outputMemberRows (mergeDataset av nr).1).filter isDataRow :=
    List.mem_filter.mpr ⟨htm, H2 t ht⟩
  rw [existingIdsOf, existing_full_rows_sync]
  exact List.mem_map.mpr ⟨t, hfil, hteq⟩

/-- A retryable redeem response advances the attempt counter, records
the doubled back-off sleep, and issues the next request. -/
theorem redeemFrom_retryStep (resp : Nat → RedeemResponse)
    (attempt rem reqs : Nat) (ws : List Nat)
    (h : (resp attempt).status = 400 ∨ (resp attempt).status = 480 ∨
         (resp attempt).status = 100 ∨ (resp attempt).status = 429) :
    redeemFrom resp attempt (rem + 1) reqs ws
      = redeemFrom resp (attempt + 1) rem (reqs + 1) (ws ++ [2 * 2 ^ (attempt - 1)]) := by
  rcases h with h | h | h | h <;> simp [redeemFrom, h]

/-- When every polled response errors, the poll loop runs through its
whole attempt budget and reports failure. -/
theorem pollFrom_all_err (resp : Nat → PollResponse) :
    ∀ (rem i reqs : Nat), (∀ j, j < rem → 400 ≤ (resp (i + j)).status) →
      pollFrom resp i rem reqs = ⟨reqs + rem, false⟩ := by
  intro rem
  induction rem with
  | zero => intro i reqs _; simp [pollFrom]
  | succ rem ih =>
    intro i reqs h
    have h0 : 400 ≤ (resp i).status := by simpa using h 0 (Nat.succ_pos rem)
    rw [pollFrom, if_pos h0]
    rw [ih (i + 1) (reqs + 1) fun j hj => by
      have := h (j + 1) (Nat.succ_lt_succ hj)
      simpa [Nat.add_assoc, Nat.add_comm 1 j] using this]
    simp [Nat.add_assoc, Nat.add_comm 1 rem]

/-- Log invariant of the page loop: any logged request that drew a
401/403 response is either the very first request (covered by the
single first-page retry) or the loop ended in the fatal process exit. -/
theorem fetchGo_log_auth {α : Type} (resp : Nat → QueryResponse α) (ps : Nat) :
    ∀ (fuel offset : Nat) (acc : List α) (ridx : Nat) (log : List (Nat × Nat))
      (retry : Bool),
      (retry = true → ridx = 0) →
      (∀ e ∈ log, ((resp e.1).status = 401 ∨ (resp e.1).status = 403) → e.1 = 0) →
      ∀ e ∈ (fetchGo resp ps fuel offset acc ridx log retry).log,
        ((resp e.1).status = 401 ∨ (resp e.1).status = 403) →
        e.1 = 0 ∨ (fetchGo resp ps fuel offset acc ridx log retry).outcome
          = FetchOutcome.exitFatal := by
  intro fuel
  induction fuel with
  | zero =>
    intro offset acc ridx log retry _ hlog e he hst
    exact Or.inl (hlog e (by simpa [fetchGo] using he) hst)
  | succ fuel ih =>
    intro offset acc ridx log retry hretry hlog e he hst
    rw [fetchGo] at he ⊢
    by_cases hguard : 9900 ≤ offset * ps
    · rw [if_pos hguard] at he ⊢
      exact Or.inl (hlog e he hst)
    · rw [if_neg hguard] at he ⊢
      by_cases hauth :
          (((resp ridx).status == 401 || (resp ridx).status == 403) && retry) = true
      · rw [if_pos hauth] at he ⊢
        have hr0 : ridx = 0 := hretry (Bool.and_elim_right hauth)
        refine ih offset acc (ridx + 1) (log ++ [(ridx, offset)]) false
          (by simp) ?_ e he hst
        intro e' he' hst'
        rcases List.mem_append.mp he' with hmem | hmem
        · exact hlog e' hmem hst'
        · simp only [List.mem_singleton] at hmem
          subst hmem
          exact hr0
      · rw [if_neg hauth] at he ⊢
        by_cases h401 : ((resp ridx).status == 401 || (resp ridx).status == 403) = true
        · rw [if_pos h401] at he ⊢
          rcases List.mem_append.mp he with hmem | hmem
          · exact Or.inl (hlog e hmem hst)
          · exact Or.inr rfl
        · rw [if_neg h401] at he ⊢
          have hnot : ¬ ((resp ridx).status = 401 ∨ (resp ridx).status = 403) := by
            intro hcon
            rcases hcon with hcon | hcon <;> simp [hcon] at h401
          have hcarry : ∀ e' ∈ log ++ [(ridx, offset)],
              ((resp e'.1).status = 401 ∨ (resp e'.1).status = 403) → e'.1 = 0 := by
            intro e' he' hst'
            rcases List.mem_append.mp he' with hmem | hmem
            · exact hlog e' hmem hst'
            · simp only [List.mem_singleton] at hmem
              subst hmem
              exact absurd hst' hnot
          by_cases h429 : ((resp ridx).status == 429) = true
          · rw [if_pos h429] at he ⊢
            exact Or.inl (hcarry e he hst)
          · rw [if_neg h429] at he ⊢
            by_cases h400 : 400 ≤ (resp ridx).status
            · rw [if_pos h400] at he ⊢
              exact Or.inl (hcarry e he hst)
            · rw [if_neg h400] at he ⊢
              by_cases hemp : (resp ridx).records.isEmpty = true
              · rw [if_pos hemp] at he ⊢
                exact Or.inl (hcarry e he hst)
              · rw [if_neg hemp] at he ⊢
                by_cases hlen : (resp ridx).records.length < ps
                · rw [if_pos hlen] at he ⊢
                  exact Or.inl (hcarry e he hst)
                · rw [if_neg hlen] at he ⊢
                  exact ih (offset + 1) (acc ++ (resp ridx).records) (ridx + 1)
                    (log ++ [(ridx, offset)]) false (by simp) hcarry e he hst

/-- Log invariant of the page loop: every logged request was issued with
`offset * pageSize` strictly below the 9900 safeguard. -/
theorem fetchGo_log_bound {α : Type} (resp : Nat → QueryResponse α) (ps : Nat) :
    ∀ (fuel offset : Nat) (acc : List α) (ridx : Nat) (log : List (Nat × Nat))
      (retry : Bool),
      (∀ e ∈ log, e.2 * ps < 9900) →
      ∀ e ∈ (fetchGo resp ps fuel offset acc ridx log retry).log, e.2 * ps < 9900 := by
  intro fuel
  induction fuel with
  | zero =>
    intro offset acc ridx log retry hlog e he
    exact hlog e (by simpa [fetchGo] using he)
  | succ fuel ih =>
    intro offset acc ridx log retry hlog e he
    rw [fetchGo] at he
    by_cases hguard : 9900 ≤ offset * ps
    · rw [if_pos hguard] at he
      exact hlog e he
    · rw [if_neg hguard] at he
      have hext : ∀ e' ∈ log ++ [(ridx, offset)], e'.2 * ps < 9900 := by
        intro e' he'
        rcases List.mem_append.mp he' with hmem | hmem
        · exact hlog e' hmem
        · simp only [List.mem_singleton] at hmem
          subst hmem
          simpa using Nat.lt_of_not_le hguard
      by_cases hauth :
          (((resp ridx).status == 401 || (resp ridx).status == 403) && retry) = true
      · rw [if_pos hauth] at he
        exact ih offset acc (ridx + 1) (log ++ [(ridx, offset)]) false hext e he
      · rw [if_neg hauth] at he
        by_cases h401 : ((resp ridx).status == 401 || (resp ridx).status == 403) = true
        · rw [if_pos h401] at he
          exact hext e he
        · rw [if_neg h401] at he
          by_cases h429 : ((resp ridx).status == 429) = true
          · rw [if_pos h429] at he
            exact hext e he
          · rw [if_neg h429] at he
            by_cases h400 : 400 ≤ (resp ridx).status
            · rw [if_pos h400] at he
              exact hext e he
            · rw [if_neg h400] at he
              by_cases hemp : (resp ridx).records.isEmpty = true
              · rw [if_pos hemp] at he
                exact hext e he
              · rw [if_neg hemp] at he
                by_cases hlen : (resp ridx).records.length < ps
                · rw [if_pos hlen] at he
                  exact hext e he
                · rw [if_neg hlen] at he
                  exact ih (offset + 1) (acc ++ (resp ridx).records) (ridx + 1)
                    (log ++ [(ridx, offset)]) false hext e he

/-- Reaching the 10k safeguard returns the accumulated records normally,
with no request issued. -/
theorem fetchGo_guard {α : Type} (resp : Nat → QueryResponse α)
    (ps fuel offset : Nat) (acc : List α) (ridx : Nat) (log : List (Nat × Nat))
    (retry : Bool) (h : 9900 ≤ offset * ps) :
    fetchGo resp ps (fuel + 1) offset acc ridx log retry
      = ⟨.done acc true, log⟩ := by
  rw [fetchGo, if_pos h]

/-- Records whose id resolution is falsy contribute nothing at all to
invoice processing: processing a batch equals processing its
truthy-resolvable sub-batch. -/
theorem processInvoices_filter (invs : List Invoice) :
    ∀ ids : List String,
      processInvoices invs ids
        = processInvoices (invs.filter fun i => truthy (resolveId i)) ids := by
  induction invs with
  | nil => intro ids; rfl
  | cons inv rest ih =>
    intro ids
    by_cases ht : truthy (resolveId inv) = true
    · have hfil : (inv :: rest).filter (fun i => truthy (resolveId i))
          = inv :: rest.filter (fun i => truthy (resolveId i)) := by
        simp [List.filter_cons, ht]
      rw [hfil]
      simp only [processInvoices, ht, Bool.not_true, Bool.false_eq_true, if_false]
      rw [ih ids, ih ((resolveId inv).getD "" :: ids)]
    · have ht' : truthy (resolveId inv) = false := by
        simpa using ht
      have hfil : (inv :: rest).filter (fun i => truthy (resolveId i))
          = rest.filter (fun i => truthy (resolveId i)) := by
        simp [List.filter_cons, ht']
      rw [hfil]
      simp only [processInvoices, ht', Bool.not_false, if_true]
      exact ih ids

/-- Every produced report row comes from some record of the batch with a
truthy resolved id, and is exactly the row built from that record and
that id. -/
theorem processInvoices_rows_shape (invs : List Invoice) :
    ∀ (ids : List String) (r : Row), r ∈ (processInvoices invs ids).1 →
      ∃ inv ∈ invs, truthy (resolveId inv) = true ∧
        r = buildRow inv ((resolveId inv).getD "") := by
  induction invs with
  | nil => intro ids r hr; simp [processInvoices] at hr
  | cons inv rest ih =>
    intro ids r hr
    by_cases ht : truthy (resolveId inv) = true
    · simp only [processInvoices, ht, Bool.not_true, Bool.false_eq_true, if_false] at hr
      by_cases hc : ids.contains ((resolveId inv).getD "") = true
      · rw [if_pos hc] at hr
        rcases ih ids r hr with ⟨i, hi, hti, hri⟩
        exact ⟨i, List.mem_cons_of_mem _ hi, hti, hri⟩
      · rw [if_neg hc] at hr
        rcases List.mem_cons.mp hr with he | he
        · exact ⟨inv, List.mem_cons_self _ _, ht, he⟩
        · rcases ih ((resolveId inv).getD "" :: ids) r he with ⟨i, hi, hti, hri⟩
          exact ⟨i, List.mem_cons_of_mem _ hi, hti, hri⟩
    · have ht' : truthy (resolveId inv) = false := by simpa using ht
      simp only [processInvoices, ht', Bool.not_false, if_true] at hr
      rcases ih ids r hr with ⟨i, hi, hti, hri⟩
      exact ⟨i, List.mem_cons_of_mem _ hi, hti, hri⟩

/-- When the resolved ids of the truthy-resolvable records are pairwise
distinct and none is already known, no record is counted as a skipped
duplicate. -/
theorem processInvoices_skipped_zero (invs : List Invoice) :
    ∀ ids : List String,
      ((invs.filter fun i => truthy (resolveId i)).map
          fun i => (resolveId i).getD "").Nodup →
      (∀ i ∈ invs, truthy (resolveId i) = true → (resolveId i).getD "" ∉ ids) →
      (processInvoices invs ids).2.1 = 0 := by
  induction invs with
  | nil => intro ids _ _; rfl
  | cons inv rest ih =>
    intro ids hnd hdis
    by_cases ht : truthy (resolveId inv) = true
    · simp only [processInvoices, ht, Bool.not_true, Bool.false_eq_true, if_false]
      have hk : (resolveId inv).getD "" ∉ ids :=
        hdis inv (List.mem_cons_self _ _) ht
      rw [if_neg (fun hcon => hk (List.elem_iff.mp hcon))]
      have hfil : (inv :: rest).filter (fun i => truthy (resolveId i))
          = inv :: rest.filter (fun i => truthy (resolveId i)) := by
        simp [List.filter_cons, ht]
      rw [hfil, List.map_cons, List.nodup_cons] at hnd
      refine ih ((resolveId inv).getD "" :: ids) hnd.2 ?_
      intro i hi hti hmem
      rcases List.mem_cons.mp hmem with he | he
      · refine hnd.1 ?_
        refine List.mem_map.mpr ⟨i, ?_, he⟩
        exact List.mem_filter.mpr ⟨hi, hti⟩
      · exact hdis i (List.mem_cons_of_mem _ hi) hti he
    · have ht' : truthy (resolveId inv) = false := by simpa using ht
      simp only [processInvoices, ht', Bool.not_false, if_true]
      have hfil : (inv :: rest).filter (fun i => truthy (resolveId i))
          = rest.filter (fun i => truthy (resolveId i)) := by
        simp [List.filter_cons, ht']
      rw [hfil] at hnd
      exact ih ids hnd fun i hi hti => hdis i (List.mem_cons_of_mem _ hi) hti

/-- Terminating case of the chunked walk: the pointer reached the overall
start. -/
theorem chunksGo_done {α : Type} (fetch : Nat → Except Unit (List α))
    (prompt : Nat → Option Bool) (startD chunkDays : Int) (fuel : Nat)
    (pointer : Int) (ci pi streak : Nat) (writes : List Int)
    (queries : List (Int × Int)) (acc : List α) (h : pointer ≤ startD) :
    chunksGo fetch prompt startD chunkDays (fuel + 1) pointer ci pi streak
      writes queries acc = ⟨writes, queries, acc, .completed⟩ := by
  rw [chunksGo, if_pos h]

/-- One successful chunk iteration that does not trip the 3-strike
prompt: the lower bound is written and the pointer moves there. -/
theorem chunksGo_step {α : Type} (fetch : Nat → Except Unit (List α))
    (prompt : Nat → Option Bool) (startD chunkDays : Int) (fuel : Nat)
    (pointer : Int) (ci pi streak : Nat) (writes : List Int)
    (queries : List (Int × Int)) (acc : List α) (batch : List α)
    (hptr : ¬ pointer ≤ startD) (hfetch : fetch ci = .ok batch)
    (hstreak : ¬ 3 ≤ (if batch.isEmpty = true then streak + 1 else 0)) :
    chunksGo fetch prompt startD chunkDays (fuel + 1) pointer ci pi streak
        writes queries acc
      = chunksGo fetch prompt startD chunkDays fuel
          (chunkLowerBound startD chunkDays pointer) (ci + 1) (pi + 1)
          (if batch.isEmpty = true then streak + 1 else 0)
          (writes ++ [chunkLowerBound startD chunkDays pointer])
          (queries ++ [(chunkLowerBound startD chunkDays pointer, pointer + 1)])
          (if batch.isEmpty = true then acc else acc ++ batch) := by
  rw [chunksGo, if_neg hptr, hfetch]
  by_cases hemp : batch.isEmpty = true
  · rw [if_pos hemp] at hstreak ⊢
    simp only [hemp, if_true]
    rw [if_neg hstreak]
  · rw [if_neg hemp] at hstreak ⊢
    simp only [hemp, Bool.false_eq_true, if_false]

/-- One failing chunk iteration: the walk aborts, leaving the writes made
so far intact and recording no checkpoint for the failed chunk. -/
theorem chunksGo_raise {α : Type} (fetch : Nat → Except Unit (List α))
    (prompt : Nat → Option Bool) (startD chunkDays : Int) (fuel : Nat)
    (pointer : Int) (ci pi streak : Nat) (writes : List Int)
    (queries : List (Int × Int)) (acc : List α)
    (hptr : ¬ pointer ≤ startD) (hfetch : fetch ci = .error ()) :
    chunksGo fetch prompt startD chunkDays (fuel + 1) pointer ci pi streak
        writes queries acc
      = ⟨writes, queries ++ [(chunkLowerBound startD chunkDays pointer, pointer + 1)],
         acc, .raised⟩ := by
  rw [chunksGo, if_neg hptr, hfetch]

/-- One successful empty chunk that trips the 3-strike prompt while the
pointer lands on the overall start: whatever the operator answers, the
lower bound has been written and the walk ends with it recorded. -/
theorem chunksGo_prompt_last {α : Type} (fetch : Nat → Except Unit (List α))
    (prompt : Nat → Option Bool) (startD chunkDays : Int) (fuel : Nat)
    (pointer : Int) (ci pi streak : Nat) (writes : List Int)
    (queries : List (Int × Int)) (acc : List α) (batch : List α)
    (hptr : ¬ pointer ≤ startD) (hfetch : fetch ci = .ok batch)
    (hemp : batch.isEmpty = true) (hstreak : 3 ≤ streak + 1)
    (hnext : chunkLowerBound startD chunkDays pointer ≤ startD) :
    (chunksGo fetch prompt startD chunkDays (fuel + 1 + 1) pointer ci pi streak
        writes queries acc).writes
      = writes ++ [chunkLowerBound startD chunkDays pointer] := by
  rw [chunksGo, if_neg hptr, hfetch]
  simp only [hemp, if_true, if_pos hstreak]
  rcases hp : prompt pi with _ | b
  · rfl
  · cases b
    · rfl
    · rw [chunksGo_done _ _ _ _ _ _ _ _ _ _ _ _ hnext]

/-- The concrete reverse walk of the claim scenario: 2022-01-01 is day 0,
2022-04-01 is day 90, chunk size 30 days; with all three fetches
succeeding the walk writes exactly the checkpoints 60, 30, 0. -/
theorem chunks_scenario_ok {α : Type} (fetch : Nat → Except Unit (List α))
    (prompt : Nat → Option Bool) (h : ∀ i, i < 3 → (fetch i).isOk = true) :
    (fetch_invoices_reverse_chunks fetch prompt 0 90 30 10).writes = [60, 30, 0] := by
  rcases hf0 : fetch 0 with e0 | b0
  · have h0 := h 0 (by norm_num); rw [hf0] at h0; simp [Except.isOk, Except.toBool] at h0
  rcases hf1 : fetch 1 with e1 | b1
  · have h1 := h 1 (by norm_num); rw [hf1] at h1; simp [Except.isOk, Except.toBool] at h1
  rcases hf2 : fetch 2 with e2 | b2
  · have h2 := h 2 (by norm_num); rw [hf2] at h2; simp [Except.isOk, Except.toBool] at h2
  have hlb1 : chunkLowerBound 0 30 90 = 60 := by unfold chunkLowerBound; norm_num
  have hlb2 : chunkLowerBound 0 30 60 = 30 := by unfold chunkLowerBound; norm_num
  have hlb3 : chunkLowerBound 0 30 30 = 0 := by unfold chunkLowerBound; norm_num
  show (chunksGo fetch prompt 0 30 10 90 0 0 0 [] [] []).writes = [60, 30, 0]
  rw [show (10 : Nat) = 9 + 1 from rfl]
  rw [chunksGo_step fetch prompt 0 30 9 90 0 0 0 [] [] [] b0 (by norm_num) hf0
    (by split_ifs <;> omega)]
  rw [hlb1]
  rw [show (9 : Nat) = 8 + 1 from rfl]
  rw [chunksGo_step fetch prompt 0 30 8 60 1 1 _ _ _ _ b1 (by norm_num) hf1
    (by split_ifs <;> omega)]
  rw [hlb2]
  by_cases hall : b0.isEmpty = true ∧ b1.isEmpty = true ∧ b2.isEmpty = true
  · rw [show (8 : Nat) = 6 + 1 + 1 from rfl]
    have hstreak2 :
        (if b1.isEmpty = true then (if b0.isEmpty = true then 0 + 1 else 0) + 1 else 0) = 2 := by
      simp [hall.1, hall.2.1]
    rw [hstreak2]
    rw [chunksGo_prompt_last fetch prompt 0 30 6 30 2 2 2 _ _ _ b2 (by norm_num) hf2 hall.2.2
      (by norm_num) (by rw [hlb3])]
    rw [hlb3]
    simp
  · rw [show (8 : Nat) = 7 + 1 from rfl]
    rw [chunksGo_step fetch prompt 0 30 7 30 2 2 _ _ _ _ b2 (by norm_num) hf2 ?hs3]
    case hs3 =>
      by_cases hb0 : b0.isEmpty = true <;> by_cases hb1 : b1.isEmpty = true <;>
        by_cases hb2 : b2.isEmpty = true <;> simp [hb0, hb1, hb2] at hall ⊢ <;> omega
    rw [hlb3]
    rw [show (7 : Nat) = 6 + 1 from rfl]
    rw [chunksGo_done fetch prompt 0 30 6 0 3 3 _ _ _ _ (by norm_num)]
    simp

theorem chunks_scenario_fail {α : Type} (fetch : Nat → Except Unit (List α))
    (prompt : Nat → Option Bool) (k : Nat) (hk : k < 3)
    (hok : ∀ i, i < k → (fetch i).isOk = true) (hfail : fetch k = .error ()) :
    (fetch_invoices_reverse_chunks fetch prompt 0 90 30 10).writes
      = [60, 30, 0].take k := by
  have hlb1 : chunkLowerBound 0 30 90 = 60 := by unfold chunkLowerBound; norm_num
  have hlb2 : chunkLowerBound 0 30 60 = 30 := by unfold chunkLowerBound; norm_num
  show (chunksGo fetch prompt 0 30 10 90 0 0 0 [] [] []).writes = [60, 30, 0].take k
  match k, hk with
  | 0, _ =>
    rw [show (10 : Nat) = 9 + 1 from rfl]
    rw [chunksGo_raise fetch prompt 0 30 9 90 0 0 0 [] [] [] (by norm_num) hfail]
    rfl
  | 1, _ =>
    rcases hf0 : fetch 0 with e0 | b0
    · have h0 := hok 0 (by norm_num); rw [hf0] at h0
      simp [Except.isOk, Except.toBool] at h0
    rw [show (10 : Nat) = 9 + 1 from rfl]
    rw [chunksGo_step fetch prompt 0 30 9 90 0 0 0 [] [] [] b0 (by norm_num) hf0
      (by split_ifs <;> omega)]
    rw [hlb1]
    rw [show (9 : Nat) = 8 + 1 from rfl]
    rw [chunksGo_raise fetch prompt 0 30 8 60 1 1 _ _ _ _ (by norm_num) hfail]
    rfl
  | 2, _ =>
    rcases hf0 : fetch 0 with e0 | b0
    · have h0 := hok 0 (by norm_num); rw [hf0] at h0
      simp [Except.isOk, Except.toBool] at h0
    rcases hf1 : fetch 1 with e1 | b1
    · have h1 := hok 1 (by norm_num); rw [hf1] at h1
      simp [Except.isOk, Except.toBool] at h1
    rw [show (10 : Nat) = 9 + 1 from rfl]
    rw [chunksGo_step fetch prompt 0 30 9 90 0 0 0 [] [] [] b0 (by norm_num) hf0
      (by split_ifs <;> omega)]
    rw [hlb1]
    rw [show (9 : Nat) = 8 + 1 from rfl]
    rw [chunksGo_step fetch prompt 0 30 8 60 1 1 _ _ _ _ b1 (by norm_num) hf1
      (by split_ifs <;> omega)]
    rw [hlb2]
    rw [show (8 : Nat) = 7 + 1 from rfl]
    rw [chunksGo_raise fetch prompt 0 30 7 30 2 2 _ _ _ _ (by norm_num) hfail]
    simp

/-! ## Claims -/

/-- Claim C1, evaluated at a failing input. A new record whose
`issue_date` does not parse is accepted into the merged dataset
(`final_dataset` holds its padded row and the accepted count is 1), yet
the rewritten sheet consists of the header row alone: the row is omitted
from every period group instead of appearing after the parseable-date
rows, so the merge loses it. -/
theorem claim_C1_row_loss :
    (sync_formatted_data [headersRow]
        [["ID1", "Seller", "N1", "garbage", "T1", "1", "2"]]).finalDataset
      = [["ID1", "Seller", "N1", "garbage", "T1", "1", "2", "", "", "", ""]] ∧
    (sync_formatted_data [headersRow]
        [["ID1", "Seller", "N1", "garbage", "T1", "1", "2"]]).accepted = 1 ∧
    (sync_formatted_data [headersRow]
        [["ID1", "Seller", "N1", "garbage", "T1", "1", "2"]]).outputRows
      = [headersRow] := by
  refine ⟨by decide, by decide, by decide⟩

/-- Claim C2, counterexample to the claim as stated. An existing report
row with record id `"X"`, unparseable issue date `"N/A"` and non-empty
operator annotations (payment note `"Paid"`), re-merged with a new raw
record that also resolves to id `"X"`, yields an output with no row for
id `"X"` at all — the annotation values are not left unchanged in the
output, they are dropped with the row. -/
theorem claim_C2_counterexample :
    (sync_formatted_data
        [headersRow, ["X", "S", "N", "N/A", "T", "10", "20", "Food", "Paid", "Loc", "Note"]]
        [["X", "S2", "N2", "2024-01-15", "T2", "30", "40"]]).outputRows.filter
      (fun r => cell r 0 == "X") = [] := by decide

/-- Claim C2 as amended: the merge never overwrites an existing row's
operator annotations. For an existing data row `r` carrying the only
occurrence of record id `X`, every data row of the merge output with id
`X` is `r` itself, byte for byte (so its four annotation columns are
unchanged); and provided `r`'s issue date parses, `r` does appear in the
rewritten output. New raw records resolving to id `X` never contribute a
row. -/
theorem claim_C2_annotation_preservation (av nr : List Row) (r : Row) (X : String)
    (hr : r ∈ existing_full_rows av) (hid : cell r 0 = X)
    (huniq : ∀ s ∈ existing_full_rows av, cell s 0 = X → s = r) :
    (∀ t ∈ outputMemberRows (mergeDataset av nr).1, cell t 0 = X → t = r) ∧
    (hasKey r = true → r ∈ (sync_formatted_data av nr).outputRows) := by
  constructor
  · intro t ht hX
    have htds := mem_dataset_of_mem_member ht
    have hsplit : (mergeDataset av nr).1
        = existing_full_rows av ++ (addNewRows (existingIdsOf av) nr).1 := rfl
    rw [hsplit] at htds
    rcases List.mem_append.mp htds with hmem | hmem
    · exact huniq t hmem hX
    · exfalso
      have hfresh := addNewRows_fresh (existingIdsOf av) hmem
      rw [hX] at hfresh
      exact hfresh (List.mem_map.mpr ⟨r, hr, hid⟩)
  · intro hk
    have hrds : r ∈ (mergeDataset av nr).1 := List.mem_append_left _ hr
    have hm := mem_member_of_mem_dataset hrds hk
    have hb := mem_outputBlocks_of_mem_member hm
    exact List.mem_cons_of_mem _ hb

/-- Witness for the amended claim C2 at a concrete report and batch. -/
theorem claim_C2_witness :
    (∀ t ∈ outputMemberRows
        (mergeDataset
          [headersRow, ["W", "S", "N", "2024-01-15", "T", "10", "20", "c", "Paid", "l", "u"]]
          [["W", "S2", "N2", "2024-02-02", "T2", "1", "2"]]).1,
      cell t 0 = "W" → t = ["W", "S", "N", "2024-01-15", "T", "10", "20", "c", "Paid", "l", "u"]) ∧
    (hasKey ["W", "S", "N", "2024-01-15", "T", "10", "20", "c", "Paid", "l", "u"] = true →
      ["W", "S", "N", "2024-01-15", "T", "10", "20", "c", "Paid", "l", "u"] ∈
        (sync_formatted_data
          [headersRow, ["W", "S", "N", "2024-01-15", "T", "10", "20", "c", "Paid", "l", "u"]]
          [["W", "S2", "N2", "2024-02-02", "T2", "1", "2"]]).outputRows) :=
  claim_C2_annotation_preservation _ _ _ _ (by decide) (by decide) (by decide)

/-- Claim C3, counterexample to the claim as stated. First conjunct
pair: a new record with unparseable date is accepted by a first merge
(count 1) but dropped from the written output, so re-running the merge
with the same record against that output accepts it again (count 1, not
0). Last conjunct: when the existing report itself carries two rows with
the same record id, the merge output carries both — a merge output in
which two data rows share a record id. -/
theorem claim_C3_counterexample :
    (sync_formatted_data [headersRow] [["R1", "S", "N", "bad", "T", "1", "2"]]).accepted = 1 ∧
    (sync_formatted_data
        ((sync_formatted_data [headersRow] [["R1", "S", "N", "bad", "T", "1", "2"]]).outputRows)
        [["R1", "S", "N", "bad", "T", "1", "2"]]).accepted = 1 ∧
    ((sync_formatted_data
        [headersRow, ["A", "S", "N", "2024-01-15", "T", "1", "2", "", "", "", ""],
         ["A", "S", "N", "2024-01-15", "T", "1", "2", "", "", "", ""]] []).outputRows.filter
      (fun r => cell r 0 == "A")).length = 2 := by
  refine ⟨by decide, by decide, by decide⟩

/-- Claim C3 as amended. (1) Idempotence holds for well-formed data:
when every merged row has a parseable issue date and passes the
data-row read-back filter, re-running the merge with the same new rows
against its own rewritten output accepts zero additional rows. (2) The
dedup invariant is preserved: whenever the existing report's data rows
carry pairwise-distinct record ids, the data rows of the merge output
carry pairwise-distinct record ids. -/
theorem claim_C3_idempotence_dedup :
    (∀ av nr : List Row,
      (∀ r ∈ (mergeDataset av nr).1, hasKey r = true) →
      (∀ r ∈ (mergeDataset av nr).1, isDataRow r = true) →
      (sync_formatted_data ((sync_formatted_data av nr).outputRows) nr).accepted = 0) ∧
    (∀ av nr : List Row,
      (existingIdsOf av).Nodup →
      ((outputMemberRows (mergeDataset av nr).1).map (fun t => cell t 0)).Nodup) :=
  ⟨fun _ _ H1 H2 => sync_idempotent H1 H2, fun _ nr h => outputMember_ids_nodup nr h⟩

/-- Witness for the amended claim C3 at a concrete report and batch. -/
theorem claim_C3_witness :
    (sync_formatted_data
        ((sync_formatted_data [headersRow]
            [["B", "S", "N", "2024-01-15", "T", "1", "2"]]).outputRows)
        [["B", "S", "N", "2024-01-15", "T", "1", "2"]]).accepted = 0 ∧
    ((outputMemberRows
        (mergeDataset [headersRow] [["B", "S", "N", "2024-01-15", "T", "1", "2"]]).1).map
      (fun t => cell t 0)).Nodup :=
  ⟨claim_C3_idempotence_dedup.1 _ _ (by decide) (by decide),
   claim_C3_idempotence_dedup.2 _ _ (by decide)⟩

/-- Claim C4, counterexample to the claim as stated. A fetched record in
which both id fields are absent is dropped outright — no synthetic id is
derived and no report row is produced. -/
theorem claim_C4_counterexample :
    resolveId Invoice.empty = none ∧
    processInvoices [Invoice.empty] [] = ([], 0, []) := by
  refine ⟨by decide, by decide⟩

/-- Claim C4 as amended: the record id is resolved by the documented
fallback chain — the primary field `ksefReferenceNumber` when it holds a
truthy value, else the alias `ksefNumber` — but when neither yields a
truthy value the record is skipped entirely (`if not ksef_id: continue`)
and never becomes a report row; no synthetic id exists. Every produced
row is built from a record with a truthy resolved id, under that id. -/
theorem claim_C4_fallback_chain :
    (∀ inv : Invoice, truthy inv.ksefReferenceNumber = true →
        resolveId inv = inv.ksefReferenceNumber) ∧
    (∀ inv : Invoice, truthy inv.ksefReferenceNumber = false →
        resolveId inv = inv.ksefNumber) ∧
    (∀ (invs : List Invoice) (ids : List String),
        processInvoices invs ids
          = processInvoices (invs.filter fun i => truthy (resolveId i)) ids) ∧
    (∀ (invs : List Invoice) (ids : List String) (r : Row),
        r ∈ (processInvoices invs ids).1 →
        ∃ inv ∈ invs, truthy (resolveId inv) = true ∧
          r = buildRow inv ((resolveId inv).getD "")) := by
  refine ⟨?_, ?_, ?_, ?_⟩
  · intro inv ht
    rcases hf : inv.ksefReferenceNumber with _ | s
    · rw [hf] at ht; simp [truthy] at ht
    · rw [hf] at ht
      simp only [truthy, Bool.not_eq_true'] at ht
      simp [resolveId, pyOr, hf, ht]
  · intro inv ht
    rcases hf : inv.ksefReferenceNumber with _ | s
    · simp [resolveId, pyOr, hf]
    · rw [hf] at ht
      simp only [truthy] at ht
      have hs : s = "" := by simpa using ht
      simp [resolveId, pyOr, hf, hs]
  · exact fun invs ids => processInvoices_filter invs ids
  · exact fun invs ids r h => processInvoices_rows_shape invs ids r h

/-- Witness for the amended claim C4 at concrete records. -/
theorem claim_C4_witness :
    resolveId ⟨some "K1", some "K2", none, none, none, none, none, none, none, none,
        none, none⟩ = some "K1" ∧
    resolveId ⟨some "", some "K2", none, none, none, none, none, none, none, none,
        none, none⟩ = some "K2" ∧
    (∃ inv ∈ [(⟨some "K1", none, none, none, none, none, none, none, none, none,
        none, none⟩ : Invoice)],
      truthy (resolveId inv) = true ∧
        ["K1", "Unknown", "N/A", "N/A", "N/A", "0.0", "0.0"]
          = buildRow inv ((resolveId inv).getD "")) :=
  ⟨claim_C4_fallback_chain.1 _ (by decide),
   claim_C4_fallback_chain.2.1 _ (by decide),
   claim_C4_fallback_chain.2.2.2 _ [] _ (by decide)⟩

/-- Claim C5, counterexample to the claim as stated. The session-status
poll is an authenticated gateway call (it sends the bearer initial
token), yet when every response is HTTP 403 the client issues all 10
polling requests — nine further requests after the first 403 — and ends
by raising the timeout exception rather than aborting immediately. -/
theorem claim_C5_counterexample :
    checkSessionStatus (fun _ => ⟨403, none⟩) = ⟨10, false⟩ := by decide

/-- Claim C5 as amended. (1) `_post` exits the process immediately on
401/403. (2) The redeem step surfaces a 401/403 as an immediately raised
HTTP error after a single request — no retry, no success. (3) In the
invoice-query page loop, any request that draws a 401/403 is either the
very first request (the one sanctioned fixed-delay retry of the first
page) or the run ends in the fatal process exit. (4) The session-status
poll, by contrast, treats every failing response — 401/403 included —
as retryable: it issues its full budget of 10 requests before failing. -/
theorem claim_C5_auth_abort :
    (∀ r : HttpResponse, r.status = 401 ∨ r.status = 403 →
        postModel r = PostOutcome.exitFatal) ∧
    (∀ resp : Nat → RedeemResponse,
        (resp 1).status = 401 ∨ (resp 1).status = 403 →
        redeemToken resp = ⟨.httpError (resp 1).status, 1, []⟩) ∧
    (∀ (α : Type) (resp : Nat → QueryResponse α) (ps fuel : Nat),
        ∀ e ∈ (get_invoices resp ps fuel).log,
          (resp e.1).status = 401 ∨ (resp e.1).status = 403 →
          e.1 = 0 ∨ (get_invoices resp ps fuel).outcome = FetchOutcome.exitFatal) ∧
    (∀ resp : Nat → PollResponse,
        (∀ i, i < 10 → 400 ≤ (resp i).status) →
        checkSessionStatus resp = ⟨10, false⟩) := by
  refine ⟨?_, ?_, ?_, ?_⟩
  · intro r h
    rcases h with h | h <;> simp [postModel, h]
  · intro resp h
    rcases h with h | h <;> simp [redeemToken, redeemFrom, h]
  · intro α resp ps fuel e he hst
    exact fetchGo_log_auth resp _ fuel 0 [] 0 [] true (fun _ => rfl) (by simp) e he hst
  · intro resp h
    show pollFrom resp 0 10 0 = _
    have := pollFrom_all_err resp 10 0 0 fun j hj => by simpa using h j hj
    simpa using this

/-- Witness for the amended claim C5 at concrete responses. -/
theorem claim_C5_witness :
    postModel ⟨401⟩ = PostOutcome.exitFatal ∧
    redeemToken (fun _ => ⟨403, ""⟩) = ⟨.httpError 403, 1, []⟩ ∧
    ((1, 0).1 = 0 ∨
      (get_invoices (fun _ => (⟨403, []⟩ : QueryResponse Unit)) 100 5).outcome
        = FetchOutcome.exitFatal) ∧
    checkSessionStatus (fun _ => ⟨500, none⟩) = ⟨10, false⟩ :=
  ⟨claim_C5_auth_abort.1 ⟨401⟩ (Or.inl rfl),
   claim_C5_auth_abort.2.1 (fun _ => ⟨403, ""⟩) (Or.inr rfl),
   claim_C5_auth_abort.2.2.1 Unit (fun _ => ⟨403, []⟩) 100 5 (1, 0) (by decide)
     (Or.inr rfl),
   claim_C5_auth_abort.2.2.2 (fun _ => ⟨500, none⟩) (fun i _ => by norm_num)⟩

/-- Claim C6: when every redeem attempt draws a retryable status (HTTP
400, 480, 429 or the processing code 100), the authenticator issues
exactly the configured maximum of 5 requests, sleeping the doubling
back-off delays 2, 4, 8, 16, 32 seconds, and then fails with the
max-retries exhaustion error. -/
theorem claim_C6_redeem_retry_bound :
    ∀ resp : Nat → RedeemResponse,
      (∀ a, 1 ≤ a → a ≤ 5 →
        (resp a).status = 400 ∨ (resp a).status = 480 ∨
        (resp a).status = 100 ∨ (resp a).status = 429) →
      redeemToken resp = ⟨.exhausted, 5, [2, 4, 8, 16, 32]⟩ := by
  intro resp h
  show redeemFrom resp 1 5 0 [] = _
  rw [show (5 : Nat) = 4 + 1 from rfl,
    redeemFrom_retryStep resp 1 4 0 [] (h 1 (by norm_num) (by norm_num))]
  rw [show (4 : Nat) = 3 + 1 from rfl,
    redeemFrom_retryStep resp 2 3 1 _ (h 2 (by norm_num) (by norm_num))]
  rw [show (3 : Nat) = 2 + 1 from rfl,
    redeemFrom_retryStep resp 3 2 2 _ (h 3 (by norm_num) (by norm_num))]
  rw [show (2 : Nat) = 1 + 1 from rfl,
    redeemFrom_retryStep resp 4 1 3 _ (h 4 (by norm_num) (by norm_num))]
  rw [show (1 : Nat) = 0 + 1 from rfl,
    redeemFrom_retryStep resp 5 0 4 _ (h 5 (by norm_num) (by norm_num))]
  rfl

/-- Witness for claim C6: a gateway answering 480 on every attempt. -/
theorem claim_C6_witness :
    redeemToken (fun _ => ⟨480, ""⟩) = ⟨.exhausted, 5, [2, 4, 8, 16, 32]⟩ :=
  claim_C6_redeem_retry_bound _ (fun _ _ _ => Or.inr (Or.inl rfl))

/-- Claim C7: in the invoice-query page loop, every issued page request
satisfies `offset * pageSize < 9900` (with the page size clamped to the
250 production limit), hence never exceeds the gateway's 10,000-result
ceiling; and when the loop reaches an offset at the ceiling it stops
before issuing a request, returning the records accumulated so far as a
normal (non-raising) completion flagged as limit-hit. -/
theorem claim_C7_query_ceiling :
    (∀ (α : Type) (resp : Nat → QueryResponse α) (ps fuel : Nat),
      ∀ e ∈ (get_invoices resp ps fuel).log,
        e.2 * (if 250 < ps then 250 else ps) < 9900 ∧
        e.2 * (if 250 < ps then 250 else ps) ≤ 10000) ∧
    (∀ (α : Type) (resp : Nat → QueryResponse α) (ps fuel offset : Nat)
        (acc : List α) (ridx : Nat) (log : List (Nat × Nat)) (retry : Bool),
      9900 ≤ offset * ps →
      fetchGo resp ps (fuel + 1) offset acc ridx log retry
        = ⟨.done acc true, log⟩) := by
  constructor
  · intro α resp ps fuel e he
    have hb := fetchGo_log_bound resp (if 250 < ps then 250 else ps) fuel 0 [] 0 [] true
      (by simp) e he
    exact ⟨hb, le_trans (Nat.le_of_lt hb) (by norm_num)⟩
  · intro α resp ps fuel offset acc ridx log retry h
    exact fetchGo_guard resp ps fuel offset acc ridx log retry h

/-- Witness for claim C7: a concrete empty-result run for the logged
request bound, and the loop entered at the ceiling offset 40 with page
size 250 returning its accumulated records. -/
theorem claim_C7_witness :
    ((0, 0).2 * (if 250 < 250 then 250 else 250) < 9900 ∧
      (0, 0).2 * (if 250 < 250 then 250 else 250) ≤ 10000) ∧
    fetchGo (fun _ => (⟨200, []⟩ : QueryResponse Unit)) 250 1 40 [] 0 [] false
      = ⟨.done [] true, []⟩ :=
  ⟨claim_C7_query_ceiling.1 Unit (fun _ => ⟨200, []⟩) 250 5 (0, 0) (by decide),
   claim_C7_query_ceiling.2 Unit (fun _ => ⟨200, []⟩) 250 0 40 [] 0 [] false
     (by norm_num)⟩

/-- Claim C8: the backward chunked walk from day 0 (2022-01-01) to day
90 (2022-04-01) with a 30-day chunk performs exactly 3 checkpoint
writes, 60 then 30 then 0 — each equal to that chunk's lower bound
(upper bound minus chunk size, clamped to the overall start) and the
sequence strictly decreasing — whenever the three fetches succeed,
whatever they return and whatever the empty-streak prompt answers; and
each write happens only after its chunk's fetch succeeds: if the fetch
of chunk `k` fails, exactly the first `k` checkpoints were written. -/
theorem claim_C8_checkpoints :
    (∀ (α : Type) (fetch : Nat → Except Unit (List α)) (prompt : Nat → Option Bool),
      (∀ i, i < 3 → (fetch i).isOk = true) →
      (fetch_invoices_reverse_chunks fetch prompt 0 90 30 10).writes = [60, 30, 0]) ∧
    (∀ (α : Type) (fetch : Nat → Except Unit (List α)) (prompt : Nat → Option Bool)
        (k : Nat),
      k < 3 → (∀ i, i < k → (fetch i).isOk = true) → fetch k = .error () →
      (fetch_invoices_reverse_chunks fetch prompt 0 90 30 10).writes
        = [60, 30, 0].take k) :=
  ⟨fun _ f p h => chunks_scenario_ok f p h,
   fun _ f p k hk hok hf => chunks_scenario_fail f p k hk hok hf⟩

/-- Witness for claim C8: all-empty successful fetches write 60, 30, 0;
a failure on the second chunk leaves exactly the first checkpoint. -/
theorem claim_C8_witness :
    (fetch_invoices_reverse_chunks (fun _ => Except.ok ([] : List Unit)) (fun _ => none)
        0 90 30 10).writes = [60, 30, 0] ∧
    (fetch_invoices_reverse_chunks
        (fun i => if i = 0 then Except.ok ([] : List Unit) else Except.error ())
        (fun _ => none) 0 90 30 10).writes = [60, 30, 0].take 1 :=
  ⟨claim_C8_checkpoints.1 Unit _ _ (fun _ _ => rfl),
   claim_C8_checkpoints.2 Unit _ _ 1 (by norm_num)
     (fun i hi => by simp [Nat.lt_one_iff.mp hi, Except.isOk, Except.toBool]) rfl⟩

/-- Claim C10, counterexample to the claim as stated. A failed
existing-id read makes `get_existing_ids` return the empty set and the
processing loop accepts a record whose id `"A"` is in fact already in
the report — but the record-id uniqueness of the written report is not
forfeited: the merge re-reads the sheet and deduplicates again, so the
output still carries exactly one data row with id `"A"`. -/
theorem claim_C10_counterexample :
    get_existing_ids (.error ()) = [] ∧
    (processInvoices
        [⟨some "A", none, none, none, some "2024-01-15", none, none, none, none, none,
          none, none⟩]
        (get_existing_ids (.error ()))).2.1 = 0 ∧
    (processInvoices
        [⟨some "A", none, none, none, some "2024-01-15", none, none, none, none, none,
          none, none⟩]
        (get_existing_ids (.error ()))).1
      = [["A", "Unknown", "N/A", "2024-01-15", "N/A", "0.0", "0.0"]] ∧
    ((sync_formatted_data
        [headersRow, ["A", "S", "N", "2024-01-15", "T", "1", "2", "c", "p", "l", "u"]]
        (processInvoices
          [⟨some "A", none, none, none, some "2024-01-15", none, none, none, none, none,
            none, none⟩]
          (get_existing_ids (.error ()))).1).outputRows.filter
      (fun r => cell r 0 == "A")).length = 1 := by
  refine ⟨by decide, by decide, by decide, by decide⟩

/-- Claim C10 as amended. (1) Any exception while reading the id column
makes `get_existing_ids` return the empty set instead of propagating.
(2) A sync run then treats every fetched record as new at the main-loop
dedup stage: with distinct resolved ids, none is skipped as a
duplicate. (3) But the uniqueness guarantee for the written report is
not forfeited: the merge deduplicates again against the re-read sheet,
so distinct existing ids still yield an output with pairwise-distinct
record ids. -/
theorem claim_C10_failed_read :
    (∀ e : Unit, get_existing_ids (.error e) = []) ∧
    (∀ invs : List Invoice,
      ((invs.filter fun i => truthy (resolveId i)).map
          fun i => (resolveId i).getD "").Nodup →
      (processInvoices invs (get_existing_ids (.error ()))).2.1 = 0) ∧
    (∀ av nr : List Row,
      (existingIdsOf av).Nodup →
      ((outputMemberRows (mergeDataset av nr).1).map fun t => cell t 0).Nodup) := by
  refine ⟨fun _ => rfl, ?_, ?_⟩
  · intro invs hnd
    exact processInvoices_skipped_zero invs [] hnd (by simp)
  · intro av nr h
    exact outputMember_ids_nodup nr h

/-- Witness for the amended claim C10 at a concrete failed read, batch
and report. -/
theorem claim_C10_witness :
    get_existing_ids (.error ()) = [] ∧
    (processInvoices
        [⟨some "A", none, none, none, some "2024-01-15", none, none, none, none, none,
          none, none⟩]
        (get_existing_ids (.error ()))).2.1 = 0 ∧
    ((outputMemberRows
        (mergeDataset
          [headersRow, ["A", "S", "N", "2024-01-15", "T", "1", "2", "c", "p", "l", "u"]]
          [["A", "Unknown", "N/A", "2024-01-15", "N/A", "0.0", "0.0"]]).1).map
      fun t => cell t 0).Nodup :=
  ⟨claim_C10_failed_read.1 (),
   claim_C10_failed_read.2.1 _ (by decide),
   claim_C10_failed_read.2.2 _ _ (by decide)⟩

end KsefSync
